import Mathlib

/-!
Verification of the AgentAuth capability-authorization core.

This file shallowly embeds the Python services of the repository
(`app/services/rules_engine.py`, `app/services/auth_service.py`,
`app/services/ucan_service.py`, `app/services/biscuit_service.py`)
as executable Lean definitions and proves (or refutes) the spec's claims
about them.  Decimal amounts are modelled as `Rat` (Python `Decimal` /
`float` are exact on the inputs involved); wall-clock timestamps are
explicit `Nat` parameters (seconds); dates are explicit
year/month/day records.
-/

namespace AgentAuth

/-! ## Dates (Python `datetime.date`) -/

/-- A calendar date, as used by `UsageTracking.last_daily_reset` /
`last_monthly_reset`.  Python `date` comparison is lexicographic on
(year, month, day). -/
structure Date where
  year : Nat
  month : Nat
  day : Nat
deriving DecidableEq, Repr

/-- Python `date.__lt__`: lexicographic on (year, month, day). -/
def dateLt (a b : Date) : Bool :=
  a.year < b.year ||
  (a.year == b.year && (a.month < b.month ||
    (a.month == b.month && a.day < b.day)))

/-! ## Rules-engine data model (`app/models/limits.py`) -/

/-- Model of `RuleAction` enum: action to take when a rule matches. -/
inductive RuleAction where
  | allow
  | block
deriving DecidableEq, Repr

/-- Model of `SpendingLimit` row: the spending caps consulted by the rules
engine (identity/timestamp columns not consulted by `evaluate` are
omitted). -/
structure SpendingLimit where
  perTransactionLimit : Rat
  dailyLimit : Rat
  monthlyLimit : Rat
  requireApprovalAbove : Option Rat
deriving DecidableEq, Repr

/-- Model of `UsageTracking` row: per-user running counters with reset dates. -/
structure UsageTracking where
  dailySpent : Rat
  monthlySpent : Rat
  dailyTransactionCount : Nat
  monthlyTransactionCount : Nat
  lastDailyReset : Date
  lastMonthlyReset : Date
deriving DecidableEq, Repr

/-- Model of `MerchantRule` row: pattern-matching allow/block rule for
merchants.  `createdAt` is the row's `created_at` timestamp (seconds);
it is carried because the spec speaks about creation-time ordering. -/
structure MerchantRule where
  merchantPattern : String
  action : RuleAction
  isActive : Bool
  createdAt : Nat
deriving DecidableEq, Repr

/-- Model of `CategoryRule` row: exact-match allow/block rule for categories. -/
structure CategoryRule where
  category : String
  action : RuleAction
  isActive : Bool
deriving DecidableEq, Repr

/-! ## Rules engine (`app/services/rules_engine.py`) -/

/-- Model of `AuthorizationRequest` dataclass. -/
structure AuthRequest where
  userId : String
  amount : Rat
  merchant : Option String
  category : Option String
  agentId : Option String
deriving DecidableEq, Repr

/-- The deny reason produced by `RulesEngine._decision`.  The Python
code builds an f-string per deny site; each constructor stands for one
of those reason templates (`evaluate` lines 83-149). -/
inductive Reason where
  | allPassed
  | perTransactionExceeded
  | merchantBlocked
  | categoryBlocked
  | dailyLimitExceeded
  | monthlyLimitExceeded
deriving DecidableEq, Repr

/-- Model of `AuthorizationDecision` dataclass (`processing_time_ms`, a
wall-clock telemetry field, is omitted). -/
structure AuthorizationDecision where
  allowed : Bool
  reason : Reason
  requiresHumanApproval : Bool
  rulesEvaluated : Nat
deriving DecidableEq, Repr

/-- Glob matching over character lists, as performed by Python
`fnmatch.fnmatch` restricted to the wildcards the code relies on
(`*` matches any sequence, `?` matches one character, anything else is
literal; the code's comment documents exactly "supports *, ?"). -/
def globMatch : List Char → List Char → Bool
  | s, [] => s.isEmpty
  | s, '*' :: ps => s.tails.any (fun t => globMatch t ps)
  | [], _ :: _ => false
  | a :: s, c :: ps => (c == '?' || c == a) && globMatch s ps

/-- Model of `fnmatch.fnmatch` on strings. -/
def fnmatch (s p : String) : Bool :=
  globMatch s.data p.data

/-- Python `str.lower` on the ASCII range (every merchant name,
pattern and category in the repository is ASCII). -/
def strLower (s : String) : String :=
  String.mk (s.data.map Char.toLower)

/-- Model of `RulesEngine._check_merchant_rules`: the DB query selects the
user's active merchant rules **with no ORDER BY**; `rules` is the list
in the order the query returns it.  The Python for-loop returns on the
first rule whose (lower-cased) pattern matches the (lower-cased)
merchant: `some true` for ALLOW, `some false` for BLOCK, and `none`
when no rule matches. -/
def checkMerchantRules (rules : List MerchantRule) (merchant : String) :
    Option Bool :=
  match rules with
  | [] => none
  | r :: rest =>
      if r.isActive then
        if fnmatch (strLower merchant) (strLower r.merchantPattern) then
          some (r.action == RuleAction.allow)
        else
          checkMerchantRules rest merchant
      else
        checkMerchantRules rest merchant

/-- Model of `RulesEngine._check_category_rules`: exact (lower-cased) match
against the user's active category rules; `scalar_one_or_none` is
modelled as the first matching row. -/
def checkCategoryRules (rules : List CategoryRule) (category : String) :
    Option Bool :=
  match rules.find? (fun r => r.isActive && r.category == strLower category) with
  | some r => some (r.action == RuleAction.allow)
  | none => none

/-- Model of `RulesEngine._maybe_reset_counters`: zero the daily counters when
`last_daily_reset < today`; independently zero the monthly counters
when the stored month or year differs from today's. -/
def maybeResetCounters (today : Date) (u : UsageTracking) : UsageTracking :=
  let u1 :=
    if dateLt u.lastDailyReset today then
      { u with dailySpent := 0, dailyTransactionCount := 0,
               lastDailyReset := today }
    else u
  if u1.lastMonthlyReset.month != today.month ||
     u1.lastMonthlyReset.year != today.year then
    { u1 with monthlySpent := 0, monthlyTransactionCount := 0,
              lastMonthlyReset := today }
  else u1

/-- Model of `RulesEngine.evaluate`: the fixed six-stage pipeline.  Inputs are
the user's limits and usage rows (default-provisioned by the caller
when absent), the user's merchant/category rules in DB-return order,
and the request.  Returns the decision together with the
(possibly counter-reset) usage row that the stages consulted. -/
def evaluate (today : Date) (limits : SpendingLimit) (usage0 : UsageTracking)
    (mrules : List MerchantRule) (crules : List CategoryRule)
    (req : AuthRequest) : AuthorizationDecision × UsageTracking :=
  let usage := maybeResetCounters today usage0
  -- 1. per-transaction limit
  let n1 := 1
  if req.amount > limits.perTransactionLimit then
    (⟨false, Reason.perTransactionExceeded, false, n1⟩, usage)
  else
    -- 2. merchant rules (only when a merchant is supplied)
    let n2 := if req.merchant.isSome then n1 + 1 else n1
    let merchantBlocked :=
      match req.merchant with
      | some m => checkMerchantRules mrules m == some false
      | none => false
    if merchantBlocked then
      (⟨false, Reason.merchantBlocked, false, n2⟩, usage)
    else
      -- 3. category rules (only when a category is supplied)
      let n3 := if req.category.isSome then n2 + 1 else n2
      let categoryBlocked :=
        match req.category with
        | some c => checkCategoryRules crules c == some false
        | none => false
      if categoryBlocked then
        (⟨false, Reason.categoryBlocked, false, n3⟩, usage)
      else
        -- 4. daily limit
        let n4 := n3 + 1
        if usage.dailySpent + req.amount > limits.dailyLimit then
          (⟨false, Reason.dailyLimitExceeded, false, n4⟩, usage)
        else
          -- 5. monthly limit
          let n5 := n4 + 1
          if usage.monthlySpent + req.amount > limits.monthlyLimit then
            (⟨false, Reason.monthlyLimitExceeded, false, n5⟩, usage)
          else
            -- 6. human-approval threshold
            match limits.requireApprovalAbove with
            | some t =>
                (⟨true, Reason.allPassed, req.amount > t, n5 + 1⟩, usage)
            | none =>
                (⟨true, Reason.allPassed, false, n5⟩, usage)

/-- The usage-counter update performed by `RulesEngine.record_transaction`
on the user's usage row: counters move only when the decision was
allowed, each spend counter by exactly the request amount and each
transaction count by one. -/
def recordTransactionUsage (req : AuthRequest)
    (decision : AuthorizationDecision) (u : UsageTracking) : UsageTracking :=
  if decision.allowed then
    { u with
      dailySpent := u.dailySpent + req.amount,
      monthlySpent := u.monthlySpent + req.amount,
      dailyTransactionCount := u.dailyTransactionCount + 1,
      monthlyTransactionCount := u.monthlyTransactionCount + 1 }
  else u

/-- Model of `AuthorizationLog` row as built by `record_transaction`. -/
structure AuthorizationLog where
  userId : String
  agentId : Option String
  merchant : Option String
  amount : Rat
  category : Option String
  decision : String
  denialReason : Option Reason
  rulesEvaluated : Nat
deriving DecidableEq, Repr

/-- Model of `RulesEngine.record_transaction`: updates the usage row (only when
the decision is allowed and a usage row exists) and appends an
authorization-log row. -/
def recordTransaction (req : AuthRequest) (decision : AuthorizationDecision)
    (usage : Option UsageTracking) :
    Option UsageTracking × AuthorizationLog :=
  let usage' :=
    if decision.allowed then
      usage.map (recordTransactionUsage req decision)
    else usage
  (usage',
   ⟨req.userId, req.agentId, req.merchant, req.amount, req.category,
    (if decision.allowed then "approved" else "denied"),
    (if decision.allowed then none else some decision.reason),
    decision.rulesEvaluated⟩)

/-- Equality of `Except` results is decidable componentwise (used to
settle concrete runs of the fallible operations below). -/
instance instDecEqExcept {e a : Type} [DecidableEq e] [DecidableEq a] :
    DecidableEq (Except e a) := fun x y =>
  match x, y with
  | Except.ok v, Except.ok w =>
      if h : v = w then isTrue (by rw [h]) else
        isFalse (by intro hc; cases hc; exact h rfl)
  | Except.error v, Except.error w =>
      if h : v = w then isTrue (by rw [h]) else
        isFalse (by intro hc; cases hc; exact h rfl)
  | Except.ok _, Except.error _ => isFalse (by intro hc; cases hc)
  | Except.error _, Except.ok _ => isFalse (by intro hc; cases hc)

/-! ## UCAN service (`app/services/ucan_service.py`) -/

/-- A caveat value inside a capability's `caveats` dict (the code
passes caveats through opaquely; numbers and strings are the shapes
used by the repository). -/
inductive CaveatVal where
  | num (q : Rat)
  | str (s : String)
deriving DecidableEq, Repr

/-- Model of `Capability` dataclass: `{with: resource, can: action, caveats}`. -/
structure Capability where
  resource : String
  action : String
  caveats : List (String × CaveatVal)
deriving DecidableEq, Repr

/-- Model of `Capability._resource_matches`: the parent resource `*` or a
`:*`-suffixed pattern covers any child extending the stripped prefix;
otherwise the resources must be equal.  Python `rstrip("*")` strips
every trailing `*`. -/
def resourceMatches (child parent : String) : Bool :=
  if parent == "*" || List.isSuffixOf [':', '*'] parent.data then
    let prefixChars := (parent.data.reverse.dropWhile (fun c => c == '*')).reverse
    List.isPrefixOf prefixChars child.data || child == parent
  else
    child == parent

/-- Model of `Capability.is_subset_of`: resource must match the parent pattern
and the action must equal the parent's unless the parent action is
`*`.  Note that the `caveats` dicts of both capabilities are never
consulted. -/
def isSubsetOf (child parent : Capability) : Bool :=
  if !resourceMatches child.resource parent.resource then
    false
  else if parent.action != "*" && child.action != parent.action then
    false
  else
    true

/-- The UCAN error conditions.  Python raises exception classes with
message strings; each constructor stands for one raise site. -/
inductive UCANError where
  | parentExpired
  | cannotDelegate (resource action : String)
  | expired
  | notYetActive
  | missingCapability (resource action : String)
  | invalidProofInChain (inner : UCANError)
deriving DecidableEq, Repr

/-- Model of `UCANPayload` dataclass (facts `fct` are unused by the delegation
and validation paths modelled here and omitted; `prf` holds the
serialized parent tokens). -/
structure UCANPayload where
  iss : String
  aud : String
  exp : Nat
  att : List Capability
  nbf : Option Nat
  nnc : Option String
  prf : List String
deriving DecidableEq, Repr

/-- A capability-request dict as passed to `UCANService.delegate`
(`{"resource": .., "action": .., "caveats": ..}`). -/
structure CapRequest where
  resource : String
  action : String
  caveats : List (String × CaveatVal)
deriving DecidableEq, Repr

/-- The `Capability` built from a request dict. -/
def CapRequest.toCap (c : CapRequest) : Capability :=
  ⟨c.resource, c.action, c.caveats⟩

/-- The per-capability loop of `UCANService.delegate`: raise
`UCANCapabilityError` on the first requested capability that is not a
subset of any parent capability, otherwise keep it verbatim
(caveats included, unchecked). -/
def delegateCaps (parentCaps : List Capability) :
    List CapRequest → Except UCANError (List Capability)
  | [] => Except.ok []
  | c :: rest =>
      if parentCaps.any (fun p => isSubsetOf c.toCap p) then
        match delegateCaps parentCaps rest with
        | Except.ok caps => Except.ok (c.toCap :: caps)
        | Except.error e => Except.error e
      else
        Except.error (UCANError.cannotDelegate c.resource c.action)

/-- Model of `UCANService.delegate`: parse the parent (given here already
parsed, together with its serialized form `parentJwt`), reject an
expired parent, then build the child UCAN: issuer is the parent's
audience, lifetime `lifetimeHours` from `now`, a fresh nonce, the
parent as proof, and either the requested capabilities (each checked
with `is_subset_of` against the parent's capabilities) or, when none
are requested, all parent capabilities. -/
def delegate (now : Nat) (parentJwt : String) (parent : UCANPayload)
    (audienceDid : String) (capabilities : Option (List CapRequest))
    (lifetimeHours : Nat) (nonce : String) :
    Except UCANError UCANPayload :=
  if now > parent.exp then
    Except.error UCANError.parentExpired
  else
    let att :=
      match capabilities with
      | some caps => delegateCaps parent.att caps
      | none => Except.ok parent.att
    match att with
    | Except.error e => Except.error e
    | Except.ok caps =>
        Except.ok
          ⟨parent.aud, audienceDid, now + lifetimeHours * 3600, caps,
           none, some nonce, [parentJwt]⟩

/-- A parsed UCAN token including its attenuation chain: header
fields, payload fields, the (unverified) signature bytes, and the
proof tokens.  `prf` holds serialized parent JWTs in the code;
`UCANService.validate` re-parses each one, which is modelled by
carrying the parsed tokens directly. -/
inductive UCANTok where
  | mk (iss aud : String) (exp : Nat) (att : List Capability)
       (nbf : Option Nat) (sig : Option (List Nat)) (prf : List UCANTok)

/-- Model of `UCAN.is_expired`: strictly past the `exp` timestamp. -/
def tokExpired (now : Nat) : UCANTok → Bool
  | UCANTok.mk _ _ exp _ _ _ _ => now > exp

/-- Model of `UCAN.is_active`: before `nbf` the token is not yet active. -/
def tokActive (now : Nat) : UCANTok → Bool
  | UCANTok.mk _ _ _ _ nbf _ _ =>
      match nbf with
      | some n => now ≥ n
      | none => true

/-- The capabilities of a token. -/
def tokAtt : UCANTok → List Capability
  | UCANTok.mk _ _ _ att _ _ _ => att

/-- The proof chain of a token. -/
def tokPrf : UCANTok → List UCANTok
  | UCANTok.mk _ _ _ _ _ _ prf => prf

mutual

/-- Model of `UCANService.validate`: check expiry, the not-before bound, the
required capability (when demanded), and recursively every proof in
the chain (without a required capability, exactly as the Python
recursion does).  The signature field is never inspected: the
docstring announces a signature check but the body performs none. -/
def validate (now : Nat) (req : Option CapRequest) :
    UCANTok → Except UCANError Bool
  | UCANTok.mk iss aud exp att nbf sig prf =>
      if tokExpired now (UCANTok.mk iss aud exp att nbf sig prf) then
        Except.error UCANError.expired
      else if !tokActive now (UCANTok.mk iss aud exp att nbf sig prf) then
        Except.error UCANError.notYetActive
      else
        match req with
        | some r =>
            if !att.any (fun cap => isSubsetOf ⟨r.resource, r.action, []⟩ cap) then
              Except.error (UCANError.missingCapability r.resource r.action)
            else
              match validateProofs now prf with
              | Except.error e => Except.error (UCANError.invalidProofInChain e)
              | Except.ok _ => Except.ok true
        | none =>
            match validateProofs now prf with
            | Except.error e => Except.error (UCANError.invalidProofInChain e)
            | Except.ok _ => Except.ok true

/-- The proof loop of `UCANService.validate`. -/
def validateProofs (now : Nat) : List UCANTok → Except UCANError Bool
  | [] => Except.ok true
  | p :: rest =>
      match validate now none p with
      | Except.error e => Except.error e
      | Except.ok _ => validateProofs now rest

end

/-! ## Biscuit service (`app/services/biscuit_service.py`) -/

/-- A term of a Biscuit Datalog fact: the repository stores strings
and numbers (`max_amount` floats) in fact terms. -/
inductive Term where
  | s (v : String)
  | n (v : Rat)
deriving DecidableEq, Repr

/-- Python `str()` of a numeric fact term.  Python prints
integer-valued floats with a trailing `.0`; non-integer values do not
occur in the repository's tokens and are rendered as a fraction. -/
def ratStr (q : Rat) : String :=
  if q.den == 1 then toString q.num ++ ".0"
  else toString q.num ++ "/" ++ toString q.den

/-- Model of `BiscuitFact` dataclass. -/
structure BiscuitFact where
  name : String
  terms : List Term
deriving DecidableEq, Repr

/-- Model of `BiscuitFact.to_datalog`: string terms are quoted, numeric terms
printed, all joined with ", " inside `name(...)`. -/
def factToDatalog (f : BiscuitFact) : String :=
  let termStr := fun t =>
    match t with
    | Term.s v => "\"" ++ v ++ "\""
    | Term.n v => ratStr v
  f.name ++ "(" ++ String.intercalate ", " (f.terms.map termStr) ++ ")"

/-- Model of `BiscuitRule` dataclass. -/
structure BiscuitRule where
  head : String
  body : List String
deriving DecidableEq, Repr

/-- Model of `BiscuitRule.to_datalog`. -/
def ruleToDatalog (r : BiscuitRule) : String :=
  r.head ++ " <- " ++ String.intercalate ", " r.body

/-- Model of `BiscuitCheck` dataclass. -/
structure BiscuitCheck where
  rule : String
deriving DecidableEq, Repr

/-- Model of `BiscuitCheck.to_datalog`. -/
def checkToDatalog (c : BiscuitCheck) : String :=
  "check if " ++ c.rule

/-- Model of `BiscuitBlock` dataclass: one link of the attenuation chain. -/
structure BiscuitBlock where
  facts : List BiscuitFact
  rules : List BiscuitRule
  checks : List BiscuitCheck
  context : Option String
deriving DecidableEq, Repr

/-- The JSON tree produced by `json.dumps` / consumed by `json.loads`
inside the Biscuit wire format. -/
inductive JsonVal where
  | null
  | str (s : String)
  | num (q : Rat)
  | arr (items : List JsonVal)
  | obj (fields : List (String × JsonVal))

/-- Model of `dict.get` / `dict[...]` on a JSON object. -/
def jGet (j : JsonVal) (key : String) : Option JsonVal :=
  match j with
  | JsonVal.obj fields => (fields.find? (fun f => f.1 == key)).map (fun f => f.2)
  | _ => none

/-- Model of `BiscuitBlock.to_dict`: facts, rules and checks are written out as
their Datalog strings. -/
def blockToDict (b : BiscuitBlock) : JsonVal :=
  JsonVal.obj
    [("facts", JsonVal.arr (b.facts.map (fun f => JsonVal.str (factToDatalog f)))),
     ("rules", JsonVal.arr (b.rules.map (fun r => JsonVal.str (ruleToDatalog r)))),
     ("checks", JsonVal.arr (b.checks.map (fun c => JsonVal.str (checkToDatalog c)))),
     ("context", match b.context with
                 | some s => JsonVal.str s
                 | none => JsonVal.null)]

/-- Model of `Biscuit` dataclass: authority block, attenuation blocks, token
metadata.  (The `_serialized` and `_signature` fields are declared in
the Python class but never assigned or read by any code path and are
omitted.) -/
structure Biscuit where
  authority : BiscuitBlock
  blocks : List BiscuitBlock
  tokenId : String
  createdAt : String
  rootKeyId : String
deriving DecidableEq, Repr

/-- Model of `Biscuit.to_dict`. -/
def biscuitToDict (b : Biscuit) : JsonVal :=
  JsonVal.obj
    [("token_id", JsonVal.str b.tokenId),
     ("created_at", JsonVal.str b.createdAt),
     ("root_key_id", JsonVal.str b.rootKeyId),
     ("authority", blockToDict b.authority),
     ("blocks", JsonVal.arr (b.blocks.map blockToDict))]

/-- Model of `Biscuit.serialize`: `base64.urlsafe_b64encode(json.dumps(to_dict))`.
The byte-level encoding (`json.dumps` then base64) is an injective
encoding of the JSON tree whose exact inverse (`b64decode` then
`json.loads`) is the first step of `deserialize`; the round trip is
therefore modelled at the JSON-tree level. -/
def serialize (b : Biscuit) : JsonVal :=
  biscuitToDict b

/-- The `context` extraction `block_data.get("context")` used by
`deserialize` (the serializer writes a string or JSON null there). -/
def dictContext (bd : JsonVal) : Option String :=
  match jGet bd "context" with
  | some (JsonVal.str s) => some s
  | _ => none

/-- Model of `Biscuit.deserialize`: parses the JSON tree back.  Faithful to the
Python body: the authority block and every attenuation block are
reconstructed with `facts=[]`, `rules=[]`, `checks=[]`, keeping only
each block's `context`; missing required keys raise, which is modelled
as `Except.error`. -/
def deserialize (j : JsonVal) : Except String Biscuit :=
  match jGet j "authority" with
  | none => Except.error "Failed to deserialize token: missing authority"
  | some authData =>
      let authority : BiscuitBlock := ⟨[], [], [], dictContext authData⟩
      let blockDatas := match jGet j "blocks" with
                        | some (JsonVal.arr l) => l
                        | _ => []
      let blocks := blockDatas.map (fun bd => (⟨[], [], [], dictContext bd⟩ : BiscuitBlock))
      match jGet j "token_id", jGet j "created_at", jGet j "root_key_id" with
      | some (JsonVal.str tid), some (JsonVal.str ca), some (JsonVal.str rk) =>
          Except.ok ⟨authority, blocks, tid, ca, rk⟩
      | _, _, _ => Except.error "Failed to deserialize token: missing metadata"

/-- Model of `Biscuit.attenuate`: append one restriction block, mint a fresh
token id (supplied here, since Python draws it from `secrets`) and a
fresh `created_at`, keep authority and root key id. -/
def biscuitAttenuate (b : Biscuit) (block : BiscuitBlock)
    (newTokenId newCreatedAt : String) : Biscuit :=
  ⟨b.authority, b.blocks ++ [block], newTokenId, newCreatedAt, b.rootKeyId⟩

/-- The restriction block built by `BiscuitService.attenuate_token`
out of the optional new max amount and the optional merchant /
category allow-lists (Python treats `None` and the empty list alike;
both are modelled as `[]`). -/
def restrictionBlock (newMaxAmount : Option Rat)
    (allowedMerchants allowedCategories : List String) : BiscuitBlock :=
  let amountChecks :=
    match newMaxAmount with
    | some x => [BiscuitCheck.mk ("amount($amt), $amt <= " ++ ratStr x)]
    | none => []
  let merchantChecks :=
    if allowedMerchants.isEmpty then []
    else [BiscuitCheck.mk (String.intercalate " or "
            (allowedMerchants.map (fun m => "merchant(\"" ++ m ++ "\")")))]
  let categoryChecks :=
    if allowedCategories.isEmpty then []
    else [BiscuitCheck.mk (String.intercalate " or "
            (allowedCategories.map (fun c => "category(\"" ++ c ++ "\")")))]
  ⟨[], [], amountChecks ++ merchantChecks ++ categoryChecks, none⟩

/-- Model of `BiscuitService.attenuate_token`: build the restriction block and
attenuate.  No comparison against the parent's caveats happens and no
error can be raised. -/
def attenuateToken (token : Biscuit) (newMaxAmount : Option Rat)
    (allowedMerchants allowedCategories : List String)
    (newTokenId newCreatedAt : String) : Biscuit :=
  biscuitAttenuate token
    (restrictionBlock newMaxAmount allowedMerchants allowedCategories)
    newTokenId newCreatedAt

/-! ## Auth service (`app/services/auth_service.py`) -/

/-- The consent snapshot dict cached by the auth service
(`consent_data` built in `_check_consent_cached`).  `expires_at` is
stored as a string and parsed back with `dateutil`; it is modelled as
the parsed timestamp (seconds). -/
structure ConsentData where
  consentId : String
  userId : String
  isActive : Bool
  revokedAt : Option String
  expiresAt : Nat
deriving DecidableEq, Repr

/-- The in-memory consent cache `_consent_cache`: consent id mapped to
(snapshot, cached_at seconds), in insertion order. -/
abbrev ConsentCache := List (String × ConsentData × Nat)

/-- Model of `CACHE_TTL_SECONDS`. -/
def cacheTTL : Nat := 300

/-- Dictionary lookup in the consent cache. -/
def cacheLookup (cache : ConsentCache) (cid : String) :
    Option (ConsentData × Nat) :=
  (cache.find? (fun e => e.1 == cid)).map (fun e => e.2)

/-- Dictionary deletion in the consent cache. -/
def cacheErase (cache : ConsentCache) (cid : String) : ConsentCache :=
  cache.filter (fun e => e.1 != cid)

/-- Model of `AuthService._get_cached_consent`: a hit younger than the TTL is
returned as-is; an entry older than the TTL is deleted and the lookup
is a miss. -/
def getCachedConsent (now : Nat) (cache : ConsentCache) (cid : String) :
    Option ConsentData × ConsentCache :=
  match cacheLookup cache cid with
  | some (d, t) =>
      if now - t < cacheTTL then (some d, cache)
      else (none, cacheErase cache cid)
  | none => (none, cache)

/-- Model of `AuthService._cache_consent`: store the snapshot stamped `now`,
then, if the cache holds more than 10000 entries, evict the entry with
the smallest `cached_at` (Python `min` over the keys; ties keep the
first in iteration order, as the strict comparison does here). -/
def cacheConsent (now : Nat) (cache : ConsentCache) (cid : String)
    (d : ConsentData) : ConsentCache :=
  let cache1 := cacheErase cache cid ++ [(cid, d, now)]
  if 10000 < cache1.length then
    match cache1 with
    | [] => []
    | e :: _ =>
        let oldest := cache1.foldl
          (fun acc x => if x.2.2 < acc.2.2 then x else acc) e
        cacheErase cache1 oldest.1
  else cache1

/-- The validity test `_check_consent_cached` applies to a cached
snapshot: `is_active`, not revoked and `expires_at` still in the
future. -/
def consentDataValid (now : Nat) (d : ConsentData) : Bool :=
  d.isActive && d.revokedAt.isNone && now < d.expiresAt

/-- Model of `AuthService._check_consent_cached`.  The durable store
(`consent_service.get_active_consent`, which only returns active,
unrevoked, unexpired rows, already converted to the snapshot dict) is
the function `store`.  Returns the snapshot (or `none`), the updated
cache, and whether the durable store was queried.  A fresh cache hit
that fails its own validity check returns `none` directly - the store
is NOT consulted on that path. -/
def checkConsentCached (now : Nat) (cache : ConsentCache)
    (store : String → Option ConsentData) (cid : String) :
    Option ConsentData × ConsentCache × Bool :=
  match getCachedConsent now cache cid with
  | (some c, cache1) =>
      if consentDataValid now c then (some c, cache1, false)
      else (none, cache1, false)
  | (none, cache1) =>
      match store cid with
      | none => (none, cache1, true)
      | some consent => (some consent, cacheConsent now cache1 cid consent, true)

/-- The result of `token_service.verify_token`.  The token service
module is referenced by the auth service but is not among the
available sources; `authorize` only reads the fields modelled here
(`valid`, `reason`, `message`, `payload.consent_id`), so the
verification outcome is taken as an input of `authorize`. -/
structure TokenVerification where
  valid : Bool
  reason : Option String
  message : Option String
  consentId : String
deriving DecidableEq, Repr

/-- The transaction sub-object of an `AuthorizeRequest`. -/
structure TransactionReq where
  amount : Rat
  currency : String
  merchantId : String
  merchantName : Option String
  merchantCategory : Option String
  description : Option String
deriving DecidableEq, Repr

/-- An `AuthorizeRequest` (token string omitted; its verification
outcome is the `TokenVerification` input). -/
structure AuthorizeReq where
  action : String
  transaction : TransactionReq
deriving DecidableEq, Repr

/-- Model of `AuthorizeResponse` schema. -/
structure AuthorizeResponse where
  decision : String
  reason : Option String
  message : Option String
  authorizationCode : Option String
  expiresAt : Option Nat
  consentId : Option String
deriving DecidableEq, Repr

/-- An `_auth_cache` entry cached under the authorization code. -/
structure AuthCacheEntry where
  consentId : String
  decision : String
  amount : Rat
  currency : String
  merchantId : String
  expiresAt : Nat
  createdAt : Nat
deriving DecidableEq, Repr

/-- Everything `AuthService.authorize` produces or mutates: the
response, the consent cache, the in-memory authorization cache, and
whether the synchronous DB write succeeded. -/
structure AuthorizeResult where
  response : AuthorizeResponse
  consentCache : ConsentCache
  authCache : List (String × AuthCacheEntry)
  dbWritten : Bool

/-- Model of `AuthService.authorize`: deny on failed token verification; deny
`consent_invalid` when the cached consent check yields nothing;
otherwise cache the authorization under a freshly generated code
(`generate_authorization_code`, supplied as `code`), attempt the DB
write inside try/except (`dbWriteOk` says whether it succeeds; a
failure is only logged), and return ALLOW with the code.  The
response is built after the try/except and does not depend on the
write outcome. -/
def authorize (now : Nat) (cache : ConsentCache)
    (store : String → Option ConsentData)
    (authCache : List (String × AuthCacheEntry))
    (verification : TokenVerification) (code : String)
    (expirySeconds : Nat) (req : AuthorizeReq) (dbWriteOk : Bool) :
    AuthorizeResult :=
  if !verification.valid then
    ⟨⟨"DENY", verification.reason, verification.message, none, none, none⟩,
     cache, authCache, false⟩
  else
    match checkConsentCached now cache store verification.consentId with
    | (none, cache1, _) =>
        ⟨⟨"DENY", some "consent_invalid",
          some "Consent has been revoked or does not exist",
          none, none, none⟩,
         cache1, authCache, false⟩
    | (some _, cache1, _) =>
        let expiresAt := now + expirySeconds
        let entry : AuthCacheEntry :=
          ⟨verification.consentId, "ALLOW", req.transaction.amount,
           req.transaction.currency, req.transaction.merchantId,
           expiresAt, now⟩
        ⟨⟨"ALLOW", none, none, some code, some expiresAt,
          some verification.consentId⟩,
         cache1, (code, entry) :: authCache, dbWriteOk⟩

/-- One tick of the background loop `flush_auth_queue`: an empty queue
is skipped; otherwise up to 100 records are popped as a batch and
written in one transaction, `writeOk` saying whether that write
succeeds.  The whole write sits in try/except: on failure the error is
only logged and the popped batch is NOT requeued.  Returns the
remaining queue, the drained batch, and whether it was durably
written.  The function is total: no failure escapes a tick, so the
`while True` loop always reaches the next tick. -/
def flushTick {α : Type} (queue : List α) (writeOk : Bool) :
    List α × List α × Bool :=
  if queue.isEmpty then (queue, [], true)
  else (queue.drop 100, queue.take 100, writeOk)

/-! ## Spec-side definitions (written from the spec's words, for
refinement comparisons against the code-side definitions above) -/

/-- Spec 4.2: the first failing stage of the fixed pipeline
(per-transaction limit, merchant policy, category policy, daily
aggregate, monthly aggregate), evaluated on the same inputs as
`evaluate`, with the counter rollover applied before the aggregate
stages.  `none` means no stage fails. -/
def specFirstFailingStage (today : Date) (limits : SpendingLimit)
    (usage0 : UsageTracking) (mrules : List MerchantRule)
    (crules : List CategoryRule) (req : AuthRequest) : Option Reason :=
  let usage := maybeResetCounters today usage0
  if req.amount > limits.perTransactionLimit then
    some Reason.perTransactionExceeded
  else if (match req.merchant with
           | some m => checkMerchantRules mrules m == some false
           | none => false) then
    some Reason.merchantBlocked
  else if (match req.category with
           | some c => checkCategoryRules crules c == some false
           | none => false) then
    some Reason.categoryBlocked
  else if usage.dailySpent + req.amount > limits.dailyLimit then
    some Reason.dailyLimitExceeded
  else if usage.monthlySpent + req.amount > limits.monthlyLimit then
    some Reason.monthlyLimitExceeded
  else
    none

/-- Spec 4.2 stage 2: stable insertion of a merchant rule into a list
already sorted by creation time, newest first. -/
def specInsertByCreatedDesc (r : MerchantRule) :
    List MerchantRule → List MerchantRule
  | [] => [r]
  | x :: xs =>
      if r.createdAt < x.createdAt then x :: specInsertByCreatedDesc r xs
      else r :: x :: xs

/-- Spec 4.2 stage 2: the user's merchant rules ordered
most-recently-created first (stable). -/
def specSortByCreatedDesc : List MerchantRule → List MerchantRule
  | [] => []
  | r :: rest => specInsertByCreatedDesc r (specSortByCreatedDesc rest)

/-- Spec 4.2 stage 2 as written: iterate the active merchant rules
most-recently-created first, first matching pattern wins. -/
def specCheckMerchantRulesRecencyFirst (rules : List MerchantRule)
    (merchant : String) : Option Bool :=
  checkMerchantRules (specSortByCreatedDesc rules) merchant

/-! ## Claim theorems -/

/-- C5: `RulesEngine.evaluate` runs per-transaction limit, merchant
policy, category policy, daily aggregate, monthly aggregate, approval
threshold in that fixed order; it denies exactly when some stage
fails, and the reason returned is always that of the first failing
stage in that order, regardless of which later stages would also
fail. -/
theorem evaluate_reason_is_first_failing_stage
    (today : Date) (limits : SpendingLimit) (usage0 : UsageTracking)
    (mrules : List MerchantRule) (crules : List CategoryRule)
    (req : AuthRequest) :
    (evaluate today limits usage0 mrules crules req).1.allowed =
      (specFirstFailingStage today limits usage0 mrules crules req).isNone ∧
    (evaluate today limits usage0 mrules crules req).1.reason =
      (specFirstFailingStage today limits usage0 mrules crules req).getD
        Reason.allPassed := by
  unfold evaluate specFirstFailingStage
  dsimp only
  split_ifs <;> cases h : limits.requireApprovalAbove <;> simp [h]

/-- C6 counterexample: two active merchant rules for the same user, an
older wildcard ALLOW rule (`amazon*`, created at 100) and a newer
exact BLOCK rule (`amazon.com`, created at 200).  The code iterates
the rules in the order the unordered query returns them (here: table
order, oldest first) and answers ALLOW, while iterating them
most-recently-created first - as the claim states - would answer
BLOCK.  The engine therefore does not iterate rules
most-recently-created first. -/
theorem merchant_rules_query_order_not_recency_first :
    checkMerchantRules
      [⟨"amazon*", RuleAction.allow, true, 100⟩,
       ⟨"amazon.com", RuleAction.block, true, 200⟩] "amazon.com" =
      some true ∧
    specCheckMerchantRulesRecencyFirst
      [⟨"amazon*", RuleAction.allow, true, 100⟩,
       ⟨"amazon.com", RuleAction.block, true, 200⟩] "amazon.com" =
      some false := by
  decide

/-- C6 (amended): the active merchant rules are iterated in the order
the database query returns them (the query imposes no ordering); the
first rule whose pattern matches the merchant decides allow or block,
wildcard patterns are supported, and no match yields `none` (default
allow, evaluation continues). -/
theorem check_merchant_rules_first_match_wins :
    (∀ (rules : List MerchantRule) (m : String),
      checkMerchantRules rules m =
        ((rules.filter (fun r => r.isActive)).find?
            (fun r => fnmatch (strLower m) (strLower r.merchantPattern))).map
          (fun r => r.action == RuleAction.allow)) ∧
    fnmatch "slots.gambling.com" "*.gambling.com" = true := by
  constructor
  · intro rules m
    induction rules with
    | nil => rfl
    | cons r rest ih =>
        by_cases ha : r.isActive
        · by_cases hm : fnmatch (strLower m) (strLower r.merchantPattern)
          · simp [checkMerchantRules, ha, hm, List.filter_cons, List.find?]
          · simp [checkMerchantRules, ha, hm, List.filter_cons, List.find?, ih]
        · simp [checkMerchantRules, ha, List.filter_cons, ih]
  · decide

/-- C7: when `last_daily_reset` precedes today, the next
`_maybe_reset_counters` run zeroes `daily_spent` and the daily
transaction count and stamps today, while the monthly counters are
untouched when the stored month/year equals the current one and are
independently zeroed when it differs. -/
theorem maybe_reset_counters_daily_rollover (today : Date)
    (u : UsageTracking) (h : dateLt u.lastDailyReset today = true) :
    (maybeResetCounters today u).dailySpent = 0 ∧
    (maybeResetCounters today u).dailyTransactionCount = 0 ∧
    (maybeResetCounters today u).lastDailyReset = today ∧
    ((u.lastMonthlyReset.month = today.month ∧
      u.lastMonthlyReset.year = today.year) →
      (maybeResetCounters today u).monthlySpent = u.monthlySpent ∧
      (maybeResetCounters today u).monthlyTransactionCount =
        u.monthlyTransactionCount ∧
      (maybeResetCounters today u).lastMonthlyReset = u.lastMonthlyReset) ∧
    ((u.lastMonthlyReset.month ≠ today.month ∨
      u.lastMonthlyReset.year ≠ today.year) →
      (maybeResetCounters today u).monthlySpent = 0 ∧
      (maybeResetCounters today u).monthlyTransactionCount = 0 ∧
      (maybeResetCounters today u).lastMonthlyReset = today) := by
  unfold maybeResetCounters
  simp only [h, if_true]
  split_ifs with hm
  · simp only [bne_iff_ne, ne_eq, Bool.or_eq_true] at hm
    refine ⟨rfl, rfl, rfl, ?_, fun _ => ⟨rfl, rfl, rfl⟩⟩
    rintro ⟨h1, h2⟩
    rcases hm with hm | hm <;> simp [h1, h2] at hm
  · simp only [Bool.or_eq_true, bne_iff_ne, ne_eq, not_or, not_not] at hm
    refine ⟨rfl, rfl, rfl, fun _ => ⟨rfl, rfl, rfl⟩, ?_⟩
    rintro (hne | hne) <;> exact absurd (by simp [hm.1, hm.2]) hne

/-- C7 witness: a usage record last reset on 2026-10-11 evaluated on
2026-10-12 (same month): the daily counters reset, the monthly ones
survive. -/
theorem maybe_reset_counters_daily_rollover_witness :
    dateLt (Date.mk 2026 10 11) (Date.mk 2026 10 12) = true ∧
    ((maybeResetCounters ⟨2026, 10, 12⟩
        ⟨50, 700, 3, 20, ⟨2026, 10, 11⟩, ⟨2026, 10, 1⟩⟩).dailySpent = 0 ∧
     (maybeResetCounters ⟨2026, 10, 12⟩
        ⟨50, 700, 3, 20, ⟨2026, 10, 11⟩, ⟨2026, 10, 1⟩⟩).dailyTransactionCount = 0 ∧
     (maybeResetCounters ⟨2026, 10, 12⟩
        ⟨50, 700, 3, 20, ⟨2026, 10, 11⟩, ⟨2026, 10, 1⟩⟩).lastDailyReset =
       ⟨2026, 10, 12⟩ ∧
     (((⟨2026, 10, 1⟩ : Date).month = (⟨2026, 10, 12⟩ : Date).month ∧
       (⟨2026, 10, 1⟩ : Date).year = (⟨2026, 10, 12⟩ : Date).year) →
       (maybeResetCounters ⟨2026, 10, 12⟩
          ⟨50, 700, 3, 20, ⟨2026, 10, 11⟩, ⟨2026, 10, 1⟩⟩).monthlySpent = 700 ∧
       (maybeResetCounters ⟨2026, 10, 12⟩
          ⟨50, 700, 3, 20, ⟨2026, 10, 11⟩, ⟨2026, 10, 1⟩⟩).monthlyTransactionCount = 20 ∧
       (maybeResetCounters ⟨2026, 10, 12⟩
          ⟨50, 700, 3, 20, ⟨2026, 10, 11⟩, ⟨2026, 10, 1⟩⟩).lastMonthlyReset =
         ⟨2026, 10, 1⟩) ∧
     (((⟨2026, 10, 1⟩ : Date).month ≠ (⟨2026, 10, 12⟩ : Date).month ∨
       (⟨2026, 10, 1⟩ : Date).year ≠ (⟨2026, 10, 12⟩ : Date).year) →
       (maybeResetCounters ⟨2026, 10, 12⟩
          ⟨50, 700, 3, 20, ⟨2026, 10, 11⟩, ⟨2026, 10, 1⟩⟩).monthlySpent = 0 ∧
       (maybeResetCounters ⟨2026, 10, 12⟩
          ⟨50, 700, 3, 20, ⟨2026, 10, 11⟩, ⟨2026, 10, 1⟩⟩).monthlyTransactionCount = 0 ∧
       (maybeResetCounters ⟨2026, 10, 12⟩
          ⟨50, 700, 3, 20, ⟨2026, 10, 11⟩, ⟨2026, 10, 1⟩⟩).lastMonthlyReset =
         ⟨2026, 10, 12⟩)) :=
  ⟨by decide,
   maybe_reset_counters_daily_rollover ⟨2026, 10, 12⟩
     ⟨50, 700, 3, 20, ⟨2026, 10, 11⟩, ⟨2026, 10, 1⟩⟩ (by decide)⟩

/-- C10: `record_transaction` leaves all four usage counters unchanged
when the decision is not allowed, and increments the spend counters by
exactly the request amount and the transaction counts by exactly one
when it is allowed. -/
theorem record_transaction_counters_frame
    (req : AuthRequest) (reason : Reason) (rh : Bool) (re : Nat)
    (u : UsageTracking) :
    recordTransactionUsage req ⟨false, reason, rh, re⟩ u = u ∧
    (recordTransaction req ⟨false, reason, rh, re⟩ (some u)).1 = some u ∧
    recordTransactionUsage req ⟨true, reason, rh, re⟩ u =
      { u with dailySpent := u.dailySpent + req.amount,
               monthlySpent := u.monthlySpent + req.amount,
               dailyTransactionCount := u.dailyTransactionCount + 1,
               monthlyTransactionCount := u.monthlyTransactionCount + 1 } :=
  ⟨rfl, rfl, rfl⟩

/-- Helper for C1: `delegateCaps` succeeds exactly when every
requested capability passes the `is_subset_of` test against some
parent capability. -/
theorem delegateCaps_isOk (pcaps : List Capability) :
    ∀ caps : List CapRequest,
      (delegateCaps pcaps caps).isOk =
        caps.all (fun c => pcaps.any (fun p => isSubsetOf c.toCap p))
  | [] => rfl
  | c :: rest => by
      by_cases h : pcaps.any (fun p => isSubsetOf c.toCap p)
      · have ih := delegateCaps_isOk pcaps rest
        rcases he : delegateCaps pcaps rest with e | caps2 <;>
          rw [he] at ih <;>
          simp [delegateCaps, h, he, Except.isOk, Except.toBool, ← ih]
      · simp [delegateCaps, h, Except.isOk, Except.toBool]

/-- Helper for C1: on success, the requested capabilities (caveats
included, unchecked) become the child capabilities verbatim. -/
theorem delegateCaps_ok_val (pcaps : List Capability) :
    ∀ caps : List CapRequest, (delegateCaps pcaps caps).isOk = true →
      delegateCaps pcaps caps = Except.ok (caps.map CapRequest.toCap)
  | [] => fun _ => rfl
  | c :: rest => by
      intro hk
      by_cases h : pcaps.any (fun p => isSubsetOf c.toCap p)
      · rcases he : delegateCaps pcaps rest with e | caps2
        · simp [delegateCaps, h, he, Except.isOk, Except.toBool] at hk
        · have hv := delegateCaps_ok_val pcaps rest (by simp [he, Except.isOk, Except.toBool])
          rw [he] at hv
          obtain rfl : caps2 = rest.map CapRequest.toCap := Except.ok.inj hv
          simp [delegateCaps, h, he]
      · simp [delegateCaps, h, Except.isOk, Except.toBool] at hk

/-- C1 counterexample: a parent UCAN whose single capability carries
`max_amount = 100`; delegating the same resource/action with
`max_amount = 1000` succeeds and mints a child token carrying the
widened caveat - `is_subset_of` never inspects caveats, so the
widening is not rejected with any escalation error. -/
theorem ucan_delegate_widens_max_amount :
    delegate 0 "parent.jwt"
      ⟨"did:key:user", "did:key:agent", 86400,
       [⟨"agentauth:consent:abc", "purchase", [("max_amount", CaveatVal.num 100)]⟩],
       none, none, []⟩
      "did:key:sub"
      (some [⟨"agentauth:consent:abc", "purchase",
              [("max_amount", CaveatVal.num 1000)]⟩])
      24 "nonce" =
      Except.ok
        ⟨"did:key:agent", "did:key:sub", 86400,
         [⟨"agentauth:consent:abc", "purchase",
           [("max_amount", CaveatVal.num 1000)]⟩],
         none, some "nonce", ["parent.jwt"]⟩ ∧
    (100 : Rat) < 1000 := by
  constructor
  · decide
  · norm_num

/-- C1 (amended): delegation enforces only that each requested
capability's resource and action are covered (via `is_subset_of`) by
some parent capability, rejecting the call with `UCANCapabilityError`
otherwise (and rejecting an expired parent); the caveats of the
requested capabilities are copied verbatim with no subset check.  And
`BiscuitService.attenuate_token` performs no escalation check at all:
it unconditionally appends the restriction block to the chain. -/
theorem delegate_enforces_resource_action_subset_only :
    (∀ (now : Nat) (pj : String) (parent : UCANPayload) (aud : String)
       (caps : List CapRequest) (lh : Nat) (n : String),
      (delegate now pj parent aud (some caps) lh n).isOk =
        (!decide (now > parent.exp) &&
         caps.all (fun c => parent.att.any (fun p => isSubsetOf c.toCap p))) ∧
      ((delegate now pj parent aud (some caps) lh n).isOk = true →
        delegate now pj parent aud (some caps) lh n =
          Except.ok ⟨parent.aud, aud, now + lh * 3600,
                     caps.map CapRequest.toCap, none, some n, [pj]⟩)) ∧
    (∀ (b : Biscuit) (nm : Option Rat) (am ac : List String) (tid ca : String),
      (attenuateToken b nm am ac tid ca).blocks =
        b.blocks ++ [restrictionBlock nm am ac] ∧
      (attenuateToken b nm am ac tid ca).authority = b.authority) := by
  constructor
  · intro now pj parent aud caps lh n
    have hOk := delegateCaps_isOk parent.att caps
    by_cases hexp : now > parent.exp
    · constructor
      · simp [delegate, hexp, Except.isOk, Except.toBool]
      · intro hk
        simp [delegate, hexp, Except.isOk, Except.toBool] at hk
    · rcases he : delegateCaps parent.att caps with e | okCaps
      · rw [he] at hOk
        constructor
        · simp [delegate, hexp, he, Except.isOk, Except.toBool, ← hOk]
        · intro hk
          simp [delegate, hexp, he, Except.isOk, Except.toBool] at hk
      · have hv := delegateCaps_ok_val parent.att caps (by simp [he, Except.isOk, Except.toBool])
        rw [he] at hv hOk
        obtain rfl : okCaps = caps.map CapRequest.toCap := Except.ok.inj hv
        constructor
        · simp [delegate, hexp, he, Except.isOk, Except.toBool, ← hOk]
        · intro _
          simp [delegate, hexp, he]
  · intro b nm am ac tid ca
    exact ⟨rfl, rfl⟩

/-- C2 (code bug): serializing and deserializing a Biscuit does not
round-trip.  For a token whose authority block carries the facts and
checks `create_token` installs plus one attenuation block, the wire
form contains all of them, but `deserialize` rebuilds every block with
empty facts, rules and checks, so the result differs from the
original in exactly those fields. -/
theorem biscuit_roundtrip_drops_block_contents :
    deserialize (serialize
      ⟨⟨[⟨"user", [Term.s "user_123"]⟩, ⟨"consent", [Term.s "consent_abc"]⟩,
         ⟨"permission", [Term.s "purchase"]⟩],
        [], [⟨"amount($amt), $amt <= 500.0"⟩], none⟩,
       [⟨[], [], [⟨"merchant(\"amazon.com\")"⟩], none⟩],
       "bsc_0001", "2026-01-01T00:00:00+00:00", "default"⟩) =
      Except.ok
        ⟨⟨[], [], [], none⟩, [⟨[], [], [], none⟩],
         "bsc_0001", "2026-01-01T00:00:00+00:00", "default"⟩ ∧
    (⟨⟨[], [], [], none⟩, [⟨[], [], [], none⟩],
      "bsc_0001", "2026-01-01T00:00:00+00:00", "default"⟩ : Biscuit) ≠
      ⟨⟨[⟨"user", [Term.s "user_123"]⟩, ⟨"consent", [Term.s "consent_abc"]⟩,
         ⟨"permission", [Term.s "purchase"]⟩],
        [], [⟨"amount($amt), $amt <= 500.0"⟩], none⟩,
       [⟨[], [], [⟨"merchant(\"amazon.com\")"⟩], none⟩],
       "bsc_0001", "2026-01-01T00:00:00+00:00", "default"⟩ := by
  constructor
  · decide
  · decide

/-- C3 counterexample: concrete run in which verification and consent
both pass while the transaction (amount 600) would fail the Rules
Engine's very first stage (default per-transaction limit 500):
`authorize` still returns ALLOW with a minted code - it never consults
the Rules Engine and never produces a StepUp decision. -/
theorem authorize_ignores_rules_engine :
    (authorize 0 []
       (fun cid => if cid == "cons_1"
                   then some ⟨"cons_1", "user_1", true, none, 1000⟩ else none)
       [] ⟨true, none, none, "cons_1"⟩ "authz_x" 300
       ⟨"purchase", ⟨600, "USD", "m1", none, none, none⟩⟩ true).response =
      ⟨"ALLOW", none, none, some "authz_x", some 300, some "cons_1"⟩ ∧
    (evaluate ⟨2026, 10, 12⟩ ⟨500, 1000, 10000, some 100⟩
       ⟨0, 0, 0, 0, ⟨2026, 10, 12⟩, ⟨2026, 10, 12⟩⟩ [] []
       ⟨"user_1", 600, some "m1", none, none⟩).1.allowed = false := by
  constructor <;> decide

/-- C3 (amended): after the consent check succeeds, `authorize` does
not run the Rules Engine at all - it immediately mints an
authorization code and returns ALLOW; no stage of
`RulesEngine.evaluate` is consulted and no StepUp decision exists in
this path (the response is fully determined without any rules or
limits input). -/
theorem authorize_returns_allow_after_consent
    (now : Nat) (cache : ConsentCache) (store : String → Option ConsentData)
    (authCache : List (String × AuthCacheEntry)) (v : TokenVerification)
    (code : String) (expiry : Nat) (req : AuthorizeReq) (wk : Bool)
    (c : ConsentData) (hv : v.valid = true)
    (hc : (checkConsentCached now cache store v.consentId).1 = some c) :
    (authorize now cache store authCache v code expiry req wk).response =
      ⟨"ALLOW", none, none, some code, some (now + expiry),
       some v.consentId⟩ := by
  unfold authorize
  rcases he : checkConsentCached now cache store v.consentId with ⟨copt, cache1, q⟩
  rw [he] at hc
  simp only at hc
  subst hc
  simp [hv, he]

/-- C3 witness: the amended theorem applied to a concrete valid
verification and consent. -/
theorem authorize_returns_allow_after_consent_witness :
    ((⟨true, none, none, "cons_1"⟩ : TokenVerification).valid = true) ∧
    ((checkConsentCached 0 []
        (fun cid => if cid == "cons_1"
                    then some ⟨"cons_1", "user_1", true, none, 1000⟩ else none)
        (⟨true, none, none, "cons_1"⟩ : TokenVerification).consentId).1 =
      some ⟨"cons_1", "user_1", true, none, 1000⟩) ∧
    (authorize 0 []
       (fun cid => if cid == "cons_1"
                   then some ⟨"cons_1", "user_1", true, none, 1000⟩ else none)
       [] ⟨true, none, none, "cons_1"⟩ "authz_y" 300
       ⟨"purchase", ⟨347, "USD", "m1", none, none, none⟩⟩ true).response =
      ⟨"ALLOW", none, none, some "authz_y", some 300, some "cons_1"⟩ :=
  ⟨rfl, by decide,
   authorize_returns_allow_after_consent 0 []
     (fun cid => if cid == "cons_1"
                 then some ⟨"cons_1", "user_1", true, none, 1000⟩ else none)
     [] ⟨true, none, none, "cons_1"⟩ "authz_y" 300
     ⟨"purchase", ⟨347, "USD", "m1", none, none, none⟩⟩ true
     ⟨"cons_1", "user_1", true, none, 1000⟩ rfl (by decide)⟩

/-- C4 (code bug): `UCANService.validate` never inspects the signature
field of the token or of any proof in the chain - its result is
invariant under replacing the signature by arbitrary bytes - and it
accepts a concrete two-link chain whose signatures are garbage.  A
token whose signed content was modified after minting (so its stored
signature no longer matches its content) is therefore accepted, not
rejected with any invalid-signature error. -/
theorem validate_never_checks_signature :
    (∀ (now : Nat) (req : Option CapRequest) (iss aud : String) (exp : Nat)
       (att : List Capability) (nbf : Option Nat)
       (s1 s2 : Option (List Nat)) (prf : List UCANTok),
      validate now req (UCANTok.mk iss aud exp att nbf s1 prf) =
        validate now req (UCANTok.mk iss aud exp att nbf s2 prf)) ∧
    validate 100 (some ⟨"agentauth:consent:abc", "purchase", []⟩)
      (UCANTok.mk "did:key:user" "did:key:agent" 86400
        [⟨"agentauth:consent:*", "purchase", [("max_amount", CaveatVal.num 100)]⟩]
        none (some [222, 173, 190, 239])
        [UCANTok.mk "did:key:root" "did:key:user" 86400
          [⟨"agentauth:consent:*", "*", []⟩] none (some [0, 0, 0, 0]) []]) =
      Except.ok true := by
  constructor
  · intro now req iss aud exp att nbf s1 s2 prf
    rfl
  · decide

/-- C8 counterexample: a fresh (within-TTL) cached consent snapshot
that fails its validity check (`is_active = false`) makes the lookup
return `none` with the store untouched (third component `false`),
while an actual miss on the same store returns the valid consent from
the store (third component `true`).  The invalid hit is therefore not
treated as a miss: it short-circuits to a denial instead of falling
through to the Consent Store. -/
theorem invalid_cached_consent_not_treated_as_miss :
    checkConsentCached 1000
      [("c1", ⟨"c1", "u1", false, none, 5000⟩, 900)]
      (fun cid => if cid == "c1"
                  then some ⟨"c1", "u1", true, none, 5000⟩ else none)
      "c1" =
      (none, [("c1", ⟨"c1", "u1", false, none, 5000⟩, 900)], false) ∧
    checkConsentCached 1000 []
      (fun cid => if cid == "c1"
                  then some ⟨"c1", "u1", true, none, 5000⟩ else none)
      "c1" =
      (some ⟨"c1", "u1", true, none, 5000⟩,
       [("c1", ⟨"c1", "u1", true, none, 5000⟩, 1000)], true) := by
  constructor <;> decide

/-- C8 (amended): a cache hit within the TTL whose snapshot fails the
validity check (inactive, revoked or expired) makes
`_check_consent_cached` return `none` immediately - the consent is
treated as invalid and the caller denies - without querying the
durable Consent Store and without touching the cache; only an absent
or TTL-expired entry falls through to the store. -/
theorem invalid_cached_consent_denies_without_store
    (now : Nat) (cache : ConsentCache) (store : String → Option ConsentData)
    (cid : String) (d : ConsentData) (t : Nat)
    (hl : cacheLookup cache cid = some (d, t))
    (hf : now - t < cacheTTL)
    (hi : consentDataValid now d = false) :
    checkConsentCached now cache store cid = (none, cache, false) := by
  unfold checkConsentCached getCachedConsent
  rw [hl]
  simp [hf, hi]

/-- C8 witness: the amended theorem applied to a concrete inactive
cached snapshot. -/
theorem invalid_cached_consent_denies_without_store_witness :
    cacheLookup [("c1", ⟨"c1", "u1", false, none, 5000⟩, 900)] "c1" =
      some (⟨"c1", "u1", false, none, 5000⟩, 900) ∧
    1000 - 900 < cacheTTL ∧
    consentDataValid 1000 ⟨"c1", "u1", false, none, 5000⟩ = false ∧
    checkConsentCached 1000
      [("c1", ⟨"c1", "u1", false, none, 5000⟩, 900)]
      (fun _ => some ⟨"c1", "u1", true, none, 5000⟩) "c1" =
      (none, [("c1", ⟨"c1", "u1", false, none, 5000⟩, 900)], false) :=
  ⟨by decide, by decide, by decide,
   invalid_cached_consent_denies_without_store 1000
     [("c1", ⟨"c1", "u1", false, none, 5000⟩, 900)]
     (fun _ => some ⟨"c1", "u1", true, none, 5000⟩) "c1"
     ⟨"c1", "u1", false, none, 5000⟩ 900
     (by decide) (by decide) (by decide)⟩

/-- C9: durable-persistence failure never changes what the caller
receives.  In `authorize`, the response and the in-memory
authorization cache are identical whether the synchronous DB write
succeeds or raises (the failure is only logged).  In the background
flush loop, a tick always removes the drained batch from the queue -
a failed batch is not requeued - and the remaining queue is
independent of the write outcome; the tick is a total function, so the
loop always continues with the next tick. -/
theorem persistence_failure_never_changes_decision :
    (∀ (now : Nat) (cache : ConsentCache) (store : String → Option ConsentData)
       (authCache : List (String × AuthCacheEntry)) (v : TokenVerification)
       (code : String) (expiry : Nat) (req : AuthorizeReq),
      (authorize now cache store authCache v code expiry req false).response =
        (authorize now cache store authCache v code expiry req true).response ∧
      (authorize now cache store authCache v code expiry req false).authCache =
        (authorize now cache store authCache v code expiry req true).authCache) ∧
    (∀ (α : Type) (queue : List α) (writeOk : Bool),
      (flushTick queue writeOk).1 = queue.drop 100 ∧
      (flushTick queue false).1 = (flushTick queue true).1) := by
  constructor
  · intro now cache store authCache v code expiry req
    unfold authorize
    by_cases hv : !v.valid
    · simp [hv]
    · rcases he : checkConsentCached now cache store v.consentId with ⟨copt, cache1, q⟩
      cases copt <;> simp [hv, he]
  · intro α queue writeOk
    constructor
    · unfold flushTick
      by_cases hq : queue.isEmpty
      · cases queue <;> simp_all
      · simp [hq]
    · unfold flushTick
      split_ifs <;> rfl

end AgentAuth

